import Mathlib

/-!
Shallow embedding of the flowchart-maker page (`src/app/page.tsx`) of the
`diagram_maker` repository, together with proofs of the specification claims.

The page keeps two in-memory arrays (`nodes`, `edges`) plus per-node transient
editing state.  JavaScript numbers for positions are embedded as rationals;
`Math.random()` and `Date.now()` become explicit parameters of the operations
that read them.  Side effects of the export routine are reified as a list of
effect values.
-/

namespace DiagramMaker

/-- A 2D position, `{ x, y }` in the source.  JavaScript floating-point
coordinates are embedded as rationals. -/
structure Position where
  x : ℚ
  y : ℚ
deriving DecidableEq

/-- A flowchart node, mirroring the reactflow `Node<CustomNodeData>` values the
page constructs: an `id` string, a `type` tag, a position, and the `data.label`
string. -/
structure Node where
  id : String
  type : String
  position : Position
  label : String
deriving DecidableEq

/-- A flowchart edge, mirroring the reactflow `Edge` values the page
constructs: an `id`, `source` and `target` node ids, and an optional rendering
`type` (the seeded edges omit it; connected edges carry `"smoothstep"`). -/
structure Edge where
  id : String
  source : String
  target : String
  type : Option String
deriving DecidableEq

/-- The three seed nodes from the `useState` initializer in `FlowchartMaker`
(`page.tsx` lines 86-104). -/
def initialNodes : List Node :=
  [ { id := "1", type := "custom", position := { x := 250, y := 5 }, label := "Start" },
    { id := "2", type := "custom", position := { x := 250, y := 100 }, label := "Process" },
    { id := "3", type := "custom", position := { x := 250, y := 200 }, label := "End" } ]

/-- The two seed edges from the `useState` initializer in `FlowchartMaker`
(`page.tsx` lines 106-109). -/
def initialEdges : List Edge :=
  [ { id := "e1-2", source := "1", target := "2", type := none },
    { id := "e2-3", source := "2", target := "3", type := none } ]

/-- The `addNode` handler (`page.tsx` lines 128-136).  `Date.now()` is the
parameter `now` (milliseconds, stringified in decimal by the template literal
as `Nat.repr`), and the two `Math.random()` draws are the parameters `rx`,
`ry`, each in `[0, 1)`.  The new node is appended: `setNodes(nds => [...nds,
newNode])`. -/
def addNode (now : Nat) (rx ry : ℚ) (nodes : List Node) : List Node :=
  nodes ++
    [ { id := Nat.repr now,
        type := "custom",
        label := "Step " ++ Nat.repr (nodes.length + 1),
        position := { x := rx * 500, y := ry * 500 } } ]

/-- A reactflow `Connection`: the two node ids of a user-drawn connection.
The spec only considers connections between two existing node handles, whose
endpoints are present. -/
structure Connection where
  source : String
  target : String
deriving DecidableEq

/-- Modelled from the spec: `addEdge` is imported from the external reactflow
library, whose source is not part of this repository.  Per the spec,
"Connecting two existing node handles adds exactly one edge referencing those
two node identifiers, rendered with the configured connector style": we model
it as appending one edge carrying the connection's endpoints, a derived
identifier, and the rendering type given by the caller. -/
def addEdge (source target : String) (etype : Option String) (edges : List Edge) : List Edge :=
  edges ++
    [ { id := "reactflow__edge-" ++ source ++ "-" ++ target,
        source := source, target := target, type := etype } ]

/-- The `onConnect` handler (`page.tsx` lines 123-126): spreads the connection
parameters, fixes `type: 'smoothstep'`, and delegates to `addEdge`. -/
def onConnect (c : Connection) (edges : List Edge) : List Edge :=
  addEdge c.source c.target (some "smoothstep") edges

/-- A DOM element as seen by the export filter: only its class list is
inspected. -/
structure DomNode where
  classList : List String

/-- The filter the page passes to `toPng` (`page.tsx` line 144):
`(node) => !node?.classList?.contains('react-flow__controls')`. -/
def exportFilter (n : DomNode) : Bool :=
  !(n.classList.contains "react-flow__controls")

/-- The options record passed to `toPng` (`page.tsx` lines 142-145). -/
structure PngOptions where
  backgroundColor : String
  filter : DomNode → Bool

/-- The concrete options used by `exportAsImage`. -/
def exportOptions : PngOptions :=
  { backgroundColor := "#111827", filter := exportFilter }

/-- The DOM subtree referenced by `flowRef`; its contents are irrelevant to
the control flow of the export routine, so it is an abstract token. -/
structure Canvas where
  handle : Nat
deriving DecidableEq

/-- An observable side effect of the export routine: either a file download
(`link.download`/`link.click()`) or a diagnostic log line (`console.error`). -/
inductive ExportEffect where
  | download (filename : String) (href : String)
  | logError (msg : String)
deriving DecidableEq

/-- The `exportAsImage` handler (`page.tsx` lines 138-154).  The external
rasterizer `toPng` (from `html-to-image`) is a parameter whose outcome is an
`Except`: `Except.ok` is the awaited data URL, `Except.error` the rejection
caught by the `catch` block.  The returned list reifies the side effects the
handler performs, in order; the function is total, so no error escapes to the
caller. -/
def exportAsImage (flowRef : Option Canvas)
    (toPng : Canvas → PngOptions → Except String String) : List ExportEffect :=
  match flowRef with
  | none => []
  | some canvas =>
    match toPng canvas exportOptions with
    | Except.ok dataUrl => [ExportEffect.download "flowchart.png" dataUrl]
    | Except.error err => [ExportEffect.logError ("Error exporting image: " ++ err)]

/-- The transient per-node editing state of `CustomNode` (`page.tsx` lines
36-37): the `isEditing` boolean and the local `label` string. -/
structure EditState where
  isEditing : Bool
  label : String
deriving DecidableEq

/-- The `useState` initializers of `CustomNode`: not editing, local label
seeded with `data.label`. -/
def initEditState (dataLabel : String) : EditState :=
  { isEditing := false, label := dataLabel }

/-- The user events `CustomNode` handles: double-click on the display div,
input change, input blur, and a key press in the input. -/
inductive EditEvent where
  | doubleClick
  | change (s : String)
  | blur
  | keyDown (key : String)
deriving DecidableEq

/-- One step of the `CustomNode` editing state machine (`page.tsx` lines
51-68).  When editing, the rendered input handles `onChange` (set the local
label), `onBlur` (leave edit mode) and `onKeyDown` (leave edit mode exactly on
`Enter`); the display div and its double-click handler are not rendered.  When
not editing, only the display div's `onDoubleClick` (enter edit mode) is
rendered. -/
def editStep (s : EditState) (e : EditEvent) : EditState :=
  if s.isEditing then
    match e with
    | EditEvent.change str => { s with label := str }
    | EditEvent.blur => { s with isEditing := false }
    | EditEvent.keyDown k => if k = "Enter" then { s with isEditing := false } else s
    | EditEvent.doubleClick => s
  else
    match e with
    | EditEvent.doubleClick => { s with isEditing := true }
    | _ => s

/-- The whole page state: the two shared arrays plus each node's local editing
state, keyed by node id. -/
structure AppState where
  nodes : List Node
  edges : List Edge
  editStates : List (String × EditState)

/-- The seeded initial page state. -/
def initAppState : AppState :=
  { nodes := initialNodes,
    edges := initialEdges,
    editStates := initialNodes.map fun n => (n.id, initEditState n.label) }

/-- A user event at page level: an "Add Node" click (with the clock and random
draws it reads), a user-drawn connection, or an editing event routed to one
node's `CustomNode`. -/
inductive AppEvent where
  | addNodeClick (now : Nat) (rx ry : ℚ)
  | connect (c : Connection)
  | edit (nodeId : String) (e : EditEvent)

/-- One page-level step: each event runs the corresponding handler; editing
events touch only the addressed node's local state. -/
def appStep (s : AppState) (ev : AppEvent) : AppState :=
  match ev with
  | AppEvent.addNodeClick now rx ry => { s with nodes := addNode now rx ry s.nodes }
  | AppEvent.connect c => { s with edges := onConnect c s.edges }
  | AppEvent.edit nid e =>
    { s with editStates :=
        s.editStates.map fun p => if p.1 = nid then (p.1, editStep p.2 e) else p }

/-- Run a sequence of page-level events from a state. -/
def run (s : AppState) (evs : List AppEvent) : AppState :=
  evs.foldl appStep s

/-- The node-id column of a page state. -/
def nodeIds (s : AppState) : List String :=
  s.nodes.map Node.id

/-- The timestamps read by the "Add Node" clicks of an event sequence, in
order. -/
def addTimes : List AppEvent → List Nat
  | [] => []
  | AppEvent.addNodeClick now _ _ :: rest => now :: addTimes rest
  | AppEvent.connect _ :: rest => addTimes rest
  | AppEvent.edit _ _ :: rest => addTimes rest

/-!
Helper lemmas: decimal string rendering (`Nat.repr`, used by the template
literal that builds new node ids) is injective.
-/

/-- Decimal decoding of a digit-character list, most significant digit
first. -/
def decodeDigits (l : List Char) : Nat :=
  l.foldl (fun a c => 10 * a + (c.toNat - 48)) 0

theorem toDigitsCore_acc_append (fuel : Nat) :
    ∀ (n : Nat) (ds : List Char),
      Nat.toDigitsCore 10 fuel n ds = Nat.toDigitsCore 10 fuel n [] ++ ds := by
  induction fuel with
  | zero => intro n ds; rfl
  | succ f ih =>
    intro n ds
    simp only [Nat.toDigitsCore]
    by_cases h : n / 10 = 0
    · simp [h]
    · simp only [h, if_false]
      rw [ih (n / 10) (Nat.digitChar (n % 10) :: ds),
        ih (n / 10) [Nat.digitChar (n % 10)], List.append_assoc]
      rfl

theorem decodeDigits_append_singleton (l : List Char) (c : Char) :
    decodeDigits (l ++ [c]) = 10 * decodeDigits l + (c.toNat - 48) := by
  simp [decodeDigits, List.foldl_append]

theorem digitChar_toNat_sub (m : Nat) (h : m < 10) :
    (Nat.digitChar m).toNat - 48 = m := by
  interval_cases m <;> rfl

theorem decodeDigits_toDigitsCore (fuel : Nat) :
    ∀ n : Nat, n ≤ fuel → decodeDigits (Nat.toDigitsCore 10 (fuel + 1) n []) = n := by
  induction fuel with
  | zero =>
    intro n hn
    have h0 : n = 0 := Nat.le_zero.mp hn
    subst h0; rfl
  | succ f ih =>
    intro n hn
    by_cases h : n / 10 = 0
    · have h10 : n < 10 := by omega
      have hstep : Nat.toDigitsCore 10 (f + 1 + 1) n [] = [Nat.digitChar (n % 10)] := by
        simp only [Nat.toDigitsCore, h, if_true]
      rw [hstep]
      simp only [decodeDigits, List.foldl]
      rw [digitChar_toNat_sub (n % 10) (by omega)]
      omega
    · have hstep : Nat.toDigitsCore 10 (f + 1 + 1) n [] =
          Nat.toDigitsCore 10 (f + 1) (n / 10) [Nat.digitChar (n % 10)] := by
        simp only [Nat.toDigitsCore, h, if_false]
      rw [hstep, toDigitsCore_acc_append, decodeDigits_append_singleton,
        ih (n / 10) (by omega), digitChar_toNat_sub (n % 10) (by omega)]
      omega

theorem natRepr_injective : Function.Injective Nat.repr := by
  intro m n h
  have hd : Nat.toDigitsCore 10 (m + 1) m [] = Nat.toDigitsCore 10 (n + 1) n [] := by
    have hdata := congrArg String.data h
    simpa [Nat.repr, Nat.toDigits, List.asString] using hdata
  have hm := decodeDigits_toDigitsCore m m (Nat.le_refl m)
  have hn := decodeDigits_toDigitsCore n n (Nat.le_refl n)
  have heq : decodeDigits (Nat.toDigitsCore 10 (m + 1) m []) =
      decodeDigits (Nat.toDigitsCore 10 (n + 1) n []) := by rw [hd]
  rw [hm, hn] at heq
  exact heq

/-!
Helper lemmas about running event sequences.
-/

theorem nodeIds_run (evs : List AppEvent) :
    ∀ s : AppState, nodeIds (run s evs) = nodeIds s ++ (addTimes evs).map Nat.repr := by
  induction evs with
  | nil => intro s; simp [run, addTimes]
  | cons e rest ih =>
    intro s
    cases e with
    | addNodeClick now rx ry =>
      rw [show run s (AppEvent.addNodeClick now rx ry :: rest) =
          run (appStep s (AppEvent.addNodeClick now rx ry)) rest from rfl, ih]
      simp [appStep, addNode, nodeIds, addTimes]
    | connect c =>
      rw [show run s (AppEvent.connect c :: rest) =
          run (appStep s (AppEvent.connect c)) rest from rfl, ih]
      simp [appStep, nodeIds, addTimes]
    | edit nid ev =>
      rw [show run s (AppEvent.edit nid ev :: rest) =
          run (appStep s (AppEvent.edit nid ev)) rest from rfl, ih]
      simp [appStep, nodeIds, addTimes]

/-!
Claim theorems.
-/

/-- C1: for every current node list, `addNode` increases the node count by
exactly one, and the appended node's position satisfies `0 ≤ x < 500` and
`0 ≤ y < 500` whenever the two random draws lie in `[0, 1)`. -/
theorem addNode_count_and_bounds (now : Nat) (rx ry : ℚ) (nodes : List Node)
    (hx0 : 0 ≤ rx) (hx1 : rx < 1) (hy0 : 0 ≤ ry) (hy1 : ry < 1) :
    (addNode now rx ry nodes).length = nodes.length + 1 ∧
    ∃ nd : Node, addNode now rx ry nodes = nodes ++ [nd] ∧
      0 ≤ nd.position.x ∧ nd.position.x < 500 ∧
      0 ≤ nd.position.y ∧ nd.position.y < 500 := by
  refine ⟨by simp [addNode], ⟨_, rfl, ?_, ?_, ?_, ?_⟩⟩
  · exact mul_nonneg hx0 (by norm_num)
  · show rx * 500 < 500
    linarith
  · exact mul_nonneg hy0 (by norm_num)
  · show ry * 500 < 500
    linarith

/-- Witness for C1 at `now = 0`, both random draws `1/2`, empty node list. -/
theorem addNode_count_and_bounds_witness :
    ((0 : ℚ) ≤ 1 / 2 ∧ (1 : ℚ) / 2 < 1) ∧
    ((addNode 0 (1 / 2) (1 / 2) ([] : List Node)).length = ([] : List Node).length + 1 ∧
      ∃ nd : Node, addNode 0 (1 / 2) (1 / 2) ([] : List Node) = ([] : List Node) ++ [nd] ∧
        0 ≤ nd.position.x ∧ nd.position.x < 500 ∧
        0 ≤ nd.position.y ∧ nd.position.y < 500) :=
  ⟨⟨by norm_num, by norm_num⟩,
    addNode_count_and_bounds 0 (1 / 2) (1 / 2) []
      (by norm_num) (by norm_num) (by norm_num) (by norm_num)⟩

/-- C2: from the seeded initial state (3 nodes, 2 edges), one "Add Node" click
yields 4 nodes and 2 edges, and the appended node's label is `"Step 4"`,
whatever the clock and the random draws return. -/
theorem initial_addNode_scenario (now : Nat) (rx ry : ℚ) :
    (appStep initAppState (AppEvent.addNodeClick now rx ry)).nodes.length = 4 ∧
    (appStep initAppState (AppEvent.addNodeClick now rx ry)).edges.length = 2 ∧
    ∃ nd : Node,
      (appStep initAppState (AppEvent.addNodeClick now rx ry)).nodes =
        initialNodes ++ [nd] ∧ nd.label = "Step 4" := by
  exact ⟨rfl, rfl, ⟨_, rfl, rfl⟩⟩

/-- C3: the connect handler appends exactly one edge carrying the
connection's source and target ids and the `"smoothstep"` rendering type;
the edge count increases by exactly one.  (The append behavior of the
external `addEdge` helper is modelled from the spec.) -/
theorem onConnect_appends_edge (c : Connection) (eds : List Edge) :
    ∃ e : Edge, onConnect c eds = eds ++ [e] ∧
      e.source = c.source ∧ e.target = c.target ∧ e.type = some "smoothstep" ∧
      (onConnect c eds).length = eds.length + 1 := by
  refine ⟨_, rfl, rfl, rfl, rfl, ?_⟩
  simp [onConnect, addEdge]

/-- C4: when the canvas reference is `null`, the export handler returns with
no side effect at all, for every possible rasterizer; totality of the model
reflects that no error is thrown. -/
theorem exportAsImage_null_ref (toPng : Canvas → PngOptions → Except String String) :
    exportAsImage none toPng = [] := rfl

/-- C5: whenever rasterization fails, the export handler's only side effect
is logging the error; in particular it performs no download.  The handler is
a total function into effect lists, so the error never propagates to the
caller. -/
theorem exportAsImage_failure (canvas : Canvas)
    (toPng : Canvas → PngOptions → Except String String) (err : String)
    (h : toPng canvas exportOptions = Except.error err) :
    exportAsImage (some canvas) toPng =
      [ExportEffect.logError ("Error exporting image: " ++ err)] ∧
    ∀ fn href : String,
      ExportEffect.download fn href ∉ exportAsImage (some canvas) toPng := by
  have hmain : exportAsImage (some canvas) toPng =
      [ExportEffect.logError ("Error exporting image: " ++ err)] := by
    simp [exportAsImage, h]
  refine ⟨hmain, ?_⟩
  intro fn href
  rw [hmain]
  simp

/-- Witness for C5 with a rasterizer that always rejects with `"boom"`. -/
theorem exportAsImage_failure_witness :
    ((fun (_ : Canvas) (_ : PngOptions) => (Except.error "boom" : Except String String))
        (Canvas.mk 0) exportOptions = Except.error "boom") ∧
    (exportAsImage (some (Canvas.mk 0)) (fun _ _ => Except.error "boom") =
        [ExportEffect.logError ("Error exporting image: " ++ "boom")] ∧
      ∀ fn href : String,
        ExportEffect.download fn href ∉
          exportAsImage (some (Canvas.mk 0)) (fun _ _ => Except.error "boom")) :=
  ⟨rfl, exportAsImage_failure (Canvas.mk 0) (fun _ _ => Except.error "boom") "boom" rfl⟩

/-- C6: on successful rasterization the export handler performs exactly one
download, named `"flowchart.png"`; the options fix the background color
`"#111827"`, and the filter excludes exactly the elements whose class list
contains `"react-flow__controls"`. -/
theorem exportAsImage_success (canvas : Canvas)
    (toPng : Canvas → PngOptions → Except String String) (dataUrl : String)
    (h : toPng canvas exportOptions = Except.ok dataUrl) :
    exportAsImage (some canvas) toPng = [ExportEffect.download "flowchart.png" dataUrl] ∧
    exportOptions.backgroundColor = "#111827" ∧
    ∀ n : DomNode,
      exportOptions.filter n = false ↔ "react-flow__controls" ∈ n.classList := by
  refine ⟨by simp [exportAsImage, h], rfl, ?_⟩
  intro n
  simp [exportOptions, exportFilter]

/-- Witness for C6 with a rasterizer that always resolves to `"url"`. -/
theorem exportAsImage_success_witness :
    ((fun (_ : Canvas) (_ : PngOptions) => (Except.ok "url" : Except String String))
        (Canvas.mk 0) exportOptions = Except.ok "url") ∧
    (exportAsImage (some (Canvas.mk 0)) (fun _ _ => Except.ok "url") =
        [ExportEffect.download "flowchart.png" "url"] ∧
      exportOptions.backgroundColor = "#111827" ∧
      ∀ n : DomNode,
        exportOptions.filter n = false ↔ "react-flow__controls" ∈ n.classList) :=
  ⟨rfl, exportAsImage_success (Canvas.mk 0) (fun _ _ => Except.ok "url") "url" rfl⟩

/-- C7: from the mount state of a node labelled `L`, a double-click enters
edit mode with the input seeded with `L`; from any editing state, a blur or
an Enter key press leaves edit mode (and both are no-ops on the mode flag
when not editing, so the equations hold unconditionally). -/
theorem editStep_mode_transitions (L : String) (s : EditState) :
    editStep (initEditState L) EditEvent.doubleClick =
      { isEditing := true, label := L } ∧
    (editStep s EditEvent.blur).isEditing = false ∧
    (editStep s (EditEvent.keyDown "Enter")).isEditing = false := by
  obtain ⟨b, l⟩ := s
  cases b <;> exact ⟨rfl, rfl, rfl⟩

/-- C8: editing events routed to a node's label editor leave the shared node
list (and in particular every persisted label) unchanged. -/
theorem edit_frame_nodes (s : AppState) (nid : String) (e : EditEvent) :
    (appStep s (AppEvent.edit nid e)).nodes = s.nodes ∧
    (appStep s (AppEvent.edit nid e)).nodes.map Node.label = s.nodes.map Node.label :=
  ⟨rfl, rfl⟩

/-- C9 counterexample: two "Add Node" clicks in the same millisecond
(`Date.now()` returning 5 twice) produce two nodes with the same id, so the
node-id column of the resulting reachable state is not pairwise distinct. -/
theorem nodeIds_collision :
    ¬ (nodeIds (run initAppState
        [AppEvent.addNodeClick 5 0 0, AppEvent.addNodeClick 5 0 0])).Nodup := by
  decide

/-- C9 amended: in every state reachable from the seeded initial state, the
node ids are pairwise distinct, provided the timestamps read by the
"Add Node" clicks are pairwise distinct and none of them is 1, 2 or 3 (the
numbers whose decimal strings are the seed ids). -/
theorem nodeIds_nodup_of_distinct_times (evs : List AppEvent)
    (hnd : (addTimes evs).Nodup)
    (hseed : ∀ t ∈ addTimes evs, t ≠ 1 ∧ t ≠ 2 ∧ t ≠ 3) :
    (nodeIds (run initAppState evs)).Nodup := by
  rw [nodeIds_run]
  have hinit : nodeIds initAppState = ["1", "2", "3"] := rfl
  rw [hinit, List.nodup_append]
  refine ⟨by decide, List.Nodup.map natRepr_injective hnd, ?_⟩
  intro a ha hb
  simp only [List.mem_map] at hb
  obtain ⟨t, ht, rfl⟩ := hb
  obtain ⟨ht1, ht2, ht3⟩ := hseed t ht
  simp only [List.mem_cons, List.not_mem_nil, or_false] at ha
  rcases ha with h1 | h2 | h3
  · exact ht1 (natRepr_injective (h1.trans (by decide : ("1" : String) = Nat.repr 1)))
  · exact ht2 (natRepr_injective (h2.trans (by decide : ("2" : String) = Nat.repr 2)))
  · exact ht3 (natRepr_injective (h3.trans (by decide : ("3" : String) = Nat.repr 3)))

/-- Witness for the amended C9: two clicks at distinct timestamps 1000 and
1001 keep the node ids pairwise distinct. -/
theorem nodeIds_nodup_of_distinct_times_witness :
    ((addTimes [AppEvent.addNodeClick 1000 0 0, AppEvent.addNodeClick 1001 0 0]).Nodup ∧
      ∀ t ∈ addTimes [AppEvent.addNodeClick 1000 0 0, AppEvent.addNodeClick 1001 0 0],
        t ≠ 1 ∧ t ≠ 2 ∧ t ≠ 3) ∧
    (nodeIds (run initAppState
        [AppEvent.addNodeClick 1000 0 0, AppEvent.addNodeClick 1001 0 0])).Nodup :=
  ⟨⟨by decide, by decide⟩,
    nodeIds_nodup_of_distinct_times _ (by decide) (by decide)⟩

/-- C10: adding a node leaves the edge list untouched and only appends to the
node list; connecting leaves the node list untouched and only appends to the
edge list (the append behavior of the external `addEdge` helper is modelled
from the spec). -/
theorem addNode_connect_frame (s : AppState) (now : Nat) (rx ry : ℚ) (c : Connection) :
    (appStep s (AppEvent.addNodeClick now rx ry)).edges = s.edges ∧
    (∃ nd : Node, (appStep s (AppEvent.addNodeClick now rx ry)).nodes = s.nodes ++ [nd]) ∧
    (appStep s (AppEvent.connect c)).nodes = s.nodes ∧
    (∃ e : Edge, (appStep s (AppEvent.connect c)).edges = s.edges ++ [e]) :=
  ⟨rfl, ⟨_, rfl⟩, rfl, ⟨_, rfl⟩⟩

end DiagramMaker
